import Mathlib

/-!
Verification of the LRGEX-HUB dynamic widget execution engine.

This file gives a shallow embedding, in Lean 4, of the parts of the
repository that the specification's claims are about:

* the Render-Frequency Guard (`RenderGuard` in `src/unnamed/part_007`, and
  the inline guard inside `InnerCustomCodeWidget` in `src/unnamed/part_006`);
* the Crash Isolation Boundary (`WidgetErrorBoundary` in
  `src/unnamed/part_006` and `src/unnamed/part_007`, and the crash-reset
  effect of the iframe revision in
  `src/components/widgets/CustomCodeWidget.tsx`);
* the server-side reverse proxy (`api.post('/proxy')` in `src/server.js`);
* the client half of the Network Bridge (`proxyFetch` in
  `src/unnamed/part_006` / `src/unnamed/part_007`);
* the iframe host's `handleMessage` dispatcher and the
  `setCustomData` channel (`src/components/widgets/CustomCodeWidget.tsx`);
* the Code Loader (`GeneratedComponent` `useMemo` blocks across the
  revisions) and its memoization behaviour.

Machine timestamps are modelled as natural numbers of milliseconds,
JavaScript header objects as ordered association lists of strings, and the
platform primitives the code leans on (`URL`, `String.prototype.trim`,
the browser's hiding of `Set-Cookie`, `new Function`) are modelled
explicitly where needed, with comments flagging each such model.
-/

/-! ## Render-Frequency Guard

Source: `src/unnamed/part_007` lines 123–142 (`RenderGuard`, threshold 25)
and `src/unnamed/part_006` lines 146–167 (inline guard in
`InnerCustomCodeWidget`, threshold 170).  Both revisions share the same
window logic and differ only in the threshold and the error message, so the
step function is written once, parametrised by both, and instantiated per
revision. -/

/-- The per-instance `RenderWindow`: `renderCount` and `lastRenderTime`
mirror the two `useRef` cells of the source.  `lastRenderTime` is the start
of the current 1-second window (it is only updated on a window reset). -/
structure RenderWindow where
  renderCount : Nat
  lastRenderTime : Nat
deriving Repr, DecidableEq

/-- One guarded render invocation at time `now` (milliseconds).  Mirrors the
source exactly: increment the counter, reset the window to `{1, now}` when
more than 1000 ms have passed since the window started, and otherwise throw
when the incremented counter exceeds the threshold. -/
def guardStep (threshold : Nat) (msg : String) (s : RenderWindow) (now : Nat) :
    Except String RenderWindow :=
  let c := s.renderCount + 1
  if now - s.lastRenderTime > 1000 then
    Except.ok ⟨1, now⟩
  else if c > threshold then
    Except.error msg
  else
    Except.ok ⟨c, s.lastRenderTime⟩

/-- Drive the guard through a sequence of render invocation times. -/
def guardRun (threshold : Nat) (msg : String) (s : RenderWindow) :
    List Nat → Except String RenderWindow
  | [] => Except.ok s
  | t :: ts =>
    match guardStep threshold msg s t with
    | Except.ok s2 => guardRun threshold msg s2 ts
    | Except.error e => Except.error e

/-- State of the guard refs at mount: `useRef(0)` and `useRef(Date.now())`,
where `t0` is the time of the first render. -/
def guardMount (t0 : Nat) : RenderWindow := ⟨0, t0⟩

/-- Error message of the `part_006` inline guard. -/
def innerGuardMsg : String :=
  "Infinite Render Loop Detected: The widget is updating its state too frequently."

/-- Error message of the `part_007` `RenderGuard`. -/
def renderGuardMsg : String :=
  "Infinite Render Loop Detected. Widget stopped for safety."

/-- The `part_006` guard: threshold 170. -/
def innerGuardRun (s : RenderWindow) (ts : List Nat) : Except String RenderWindow :=
  guardRun 170 innerGuardMsg s ts

/-- The `part_007` guard: threshold 25. -/
def renderGuardRun (s : RenderWindow) (ts : List Nat) : Except String RenderWindow :=
  guardRun 25 renderGuardMsg s ts

/-- A burst of 201 render invocations at 1 ms intervals: more than 200 calls
inside a single simulated second. -/
def burstTimes : List Nat := List.range 201

/-- Render invocation times at 10 calls per second, starting at `t0`. -/
def tenHzTimes : Nat → Nat → List Nat
  | _, 0 => []
  | t0, n + 1 => t0 :: tenHzTimes (t0 + 100) n

/-- Consecutive elements of the list are at least `gap` apart, and the first
is at least `gap` after `prev`. -/
def spacedBy (gap : Nat) : Nat → List Nat → Prop
  | _, [] => True
  | prev, t :: ts => prev + gap ≤ t ∧ spacedBy gap t ts

/-! ## Crash Isolation Boundary

Source: `WidgetErrorBoundary` in `src/unnamed/part_007` lines 26–75 and
`src/unnamed/part_006` lines 30–88.  Both carry `{hasError, errorMsg}`
state, set it via `getDerivedStateFromError`, and reset it in
`componentDidUpdate` exactly when the `codeHash` prop changed.  The two
revisions differ in what the caller passes as `codeHash`:

* `part_006` line 270 passes the full source (`codeHash={props.code}`);
* `part_007` line 220 passes `code.length + code.substring(0, 20)`,
  i.e. the decimal length concatenated with the first 20 characters.

The iframe revision (`src/components/widgets/CustomCodeWidget.tsx` lines
407–417) holds the crash record in a `crashError` state cell and clears it
in an effect that runs when the `code` prop changes. -/

/-- The `{hasError, errorMsg}` state of `WidgetErrorBoundary`. -/
structure ErrorBoundaryState where
  hasError : Bool
  errorMsg : String
deriving Repr, DecidableEq

/-- Mirror of `getDerivedStateFromError`: any caught exception moves the
boundary to the Crashed state carrying the stringified error. -/
def getDerivedStateFromError (error : String) : ErrorBoundaryState :=
  ⟨true, error⟩

/-- Mirror of `componentDidUpdate`: reset to `{hasError: false, errorMsg:
''}` exactly when the `codeHash` prop changed; every other prop update
(resize, data, host re-render) leaves the state untouched. -/
def boundaryDidUpdate (prevCodeHash codeHash : String) (s : ErrorBoundaryState) :
    ErrorBoundaryState :=
  if prevCodeHash ≠ codeHash then ⟨false, ""⟩ else s

/-- The reset key the `part_007` caller derives from the source:
`code.length + code.substring(0, 20)` (JavaScript coerces the number to a
string, so this is the decimal length followed by the first 20
characters; for the ASCII sources considered here Lean's codepoint-based
`length`/`take` agree with JavaScript's UTF-16 ones). -/
def codeHash007 (code : String) : String :=
  toString code.length ++ code.take 20

/-- The iframe host's code-change effect: when the `code` prop changes, the
effect body runs `setCrashError(null)` before posting the new code. -/
def iframeCodeChangeReset (prevCode code : String) (crashError : Option String) :
    Option String :=
  if prevCode ≠ code then none else crashError

/-! ## Network Bridge — server proxy route

Source: `api.post('/proxy')` in `src/server.js` lines 216–319.  JavaScript
header objects are modelled as ordered association lists of key/value
strings; `delete obj[k]`, `obj[k]` truthiness tests and `obj[k] = v`
assignment on such objects are modelled by exact-key operations, matching
JavaScript's exact-string property semantics. -/

/-- Exact-key presence on a JavaScript header object, as property deletion
and assignment see it (`k in obj`); truthiness of `obj[k]` is the separate
`hTruthy` below. -/
def hHas (hs : List (String × String)) (k : String) : Bool :=
  hs.any (fun p => p.1 = k)

/-- Reading `obj[k]` on a JavaScript header object: the value at the key
(objects have unique keys; the model reads the first match). -/
def hGet (hs : List (String × String)) (k : String) : Option String :=
  (hs.find? (fun p => p.1 = k)).map (fun p => p.2)

/-- JavaScript truthiness of `obj[k]`, as the injection guards
`!safeHeaders[k]` of `src/server.js` lines 247–254 test it: the key is
present with a non-empty value (an absent key reads `undefined`, and a
present key holding the empty string is falsy too). -/
def hTruthy (hs : List (String × String)) (k : String) : Bool :=
  match hGet hs k with
  | some v => v ≠ ""
  | none => false

/-- Exact-key deletion, modelling `delete safeHeaders[k]`. -/
def hDelete (hs : List (String × String)) (k : String) : List (String × String) :=
  hs.filter (fun p => p.1 ≠ k)

/-- Exact-key assignment, modelling `safeHeaders[k] = v`: replace the value
in place when the key exists, append otherwise. -/
def hSet (hs : List (String × String)) (k v : String) : List (String × String) :=
  if hs.any (fun p => p.1 = k) then
    hs.map (fun p => if p.1 = k then (k, v) else p)
  else
    hs ++ [(k, v)]

/-- Lowercase a character (ASCII), modelling JavaScript's
`toLowerCase` for the header names that occur here. -/
def lowerChar (c : Char) : Char :=
  if 'A' ≤ c ∧ c ≤ 'Z' then Char.ofNat (c.toNat + 32) else c

/-- Lowercase a string character-wise; used to model the case-insensitive
header-name comparisons of `Headers.get` / `res.setHeader` and of
`key.toLowerCase()` in the source. -/
def lowerStr (s : String) : String :=
  ⟨s.data.map lowerChar⟩

/-- Modelled from the platform `URL` builtin (not repository code): the
proxy only uses construction (which throws on a malformed URL) and the
`origin` accessor.  The model accepts `scheme://host[/path...]` with a
non-empty scheme and host and rejects everything else; `origin` is
`scheme://host` as in the platform for the http/https URLs the proxy
serves. -/
structure UrlObj where
  scheme : String
  host : String
deriving Repr, DecidableEq

/-- Origin of a parsed URL: `scheme://host`. -/
def UrlObj.origin (u : UrlObj) : String :=
  u.scheme ++ "://" ++ u.host

/-- Split a character list at the first occurrence of `://`, returning the
scheme part and the remainder. -/
def splitScheme : List Char → Option (List Char × List Char)
  | [] => none
  | ':' :: '/' :: '/' :: rest => some ([], rest)
  | c :: cs => (splitScheme cs).map (fun p => (c :: p.1, p.2))

/-- Modelled from the platform `URL` builtin: parse or reject.  Mirrors
`new URL(url)` succeeding or throwing, restricted to the
`scheme://host[/path]` shape the proxy targets. -/
def parseURL (s : String) : Option UrlObj :=
  match splitScheme s.data with
  | none => none
  | some (scheme, rest) =>
    if scheme = [] then none
    else
      let host := rest.takeWhile (fun c => c ≠ '/')
      if host = [] then none
      else some ⟨⟨scheme⟩, ⟨host⟩⟩

/-- Default User-Agent injected by the proxy. -/
def defaultUserAgent : String := "Mozilla/5.0 (LRGEX-HUB-Proxy)"

/-- One injection block of the source: `if (!safeHeaders[k1] &&
!safeHeaders[k2]) safeHeaders[k] = v` — the guards are JavaScript
truthiness tests, so a key present with an empty-string value counts as
missing and the assignment then overwrites it. -/
def injectIfMissing (hs : List (String × String)) (k1 k2 k v : String) :
    List (String × String) :=
  if ¬ hTruthy hs k1 ∧ ¬ hTruthy hs k2 then hSet hs k v else hs

/-- Mirror of the header preparation in `src/server.js` lines 241–256:
copy the caller's headers, `delete` the exact keys `host`,
`content-length` and `connection`, then inject `Origin`, `Referer` and
`User-Agent` when neither the canonical nor the all-lowercase spelling
holds a truthy value. -/
def prepareSafeHeaders (headers : List (String × String)) (origin : String) :
    List (String × String) :=
  let safe := hDelete (hDelete (hDelete headers "host") "content-length") "connection"
  let safe := injectIfMissing safe "Origin" "origin" "Origin" origin
  let safe := injectIfMissing safe "Referer" "referer" "Referer" (origin ++ "/")
  injectIfMissing safe "User-Agent" "user-agent" "User-Agent" defaultUserAgent

/-- Express `res.setHeader`: header names are case-insensitive, setting
replaces any previous value for the name. -/
def resSetHeader (hs : List (String × String)) (k v : String) :
    List (String × String) :=
  (hs.filter (fun p => lowerStr p.1 ≠ lowerStr k)) ++ [(k, v)]

/-- One iteration of the response-header forwarding loop in `src/server.js`
lines 286–299: skip `content-encoding`, `content-length`,
`transfer-encoding` and `connection`; forward every other upstream header;
and additionally echo any `Set-Cookie` value under `X-Set-Cookie`. -/
def fwdStep (acc : List (String × String)) (p : String × String) :
    List (String × String) :=
  if lowerStr p.1 = "content-encoding" ∨ lowerStr p.1 = "content-length"
      ∨ lowerStr p.1 = "transfer-encoding" ∨ lowerStr p.1 = "connection" then
    acc
  else
    let acc2 := resSetHeader acc p.1 p.2
    if lowerStr p.1 = "set-cookie" then resSetHeader acc2 "X-Set-Cookie" p.2
    else acc2

/-- The full `response.headers.forEach` forwarding loop of the proxy
route. -/
def forwardResponseHeaders (upstream : List (String × String)) :
    List (String × String) :=
  upstream.foldl fwdStep []

/-- A network-level fetch failure (`catch (networkError)` in the source):
the raw message plus the optional lower-level `cause`, already stringified
as the source does with `String(networkError.cause)`. -/
structure NetworkFailure where
  message : String
  cause : Option String
deriving Repr, DecidableEq

/-- The upstream response as the proxy consumes it: status, headers and the
body read as text. -/
structure UpstreamResponse where
  status : Nat
  headers : List (String × String)
  bodyText : String
deriving Repr, DecidableEq

/-- What the proxy route sends back to the widget. -/
inductive ProxyOutcome
  | clientError (status : Nat) (error : String)
  | gatewayError (status : Nat) (error : String) (details : String) (cause : Option String)
  | forwarded (status : Nat) (headers : List (String × String)) (bodyText : String)
deriving Repr, DecidableEq

/-- Mirror of the `api.post('/proxy')` handler, `src/server.js` lines
216–311.  The upstream `fetch` is a parameter so that the handler's
behaviour can be stated for every possible network outcome; it receives the
target URL and the prepared header map, and either fails at the network
level or yields an upstream response.  `urlField` is the `url` field of the
request body (`none` when absent); `!url` in the source also treats the
empty string as missing. -/
def proxyHandle (urlField : Option String) (reqHeaders : List (String × String))
    (fetch : String → List (String × String) → Except NetworkFailure UpstreamResponse) :
    ProxyOutcome :=
  match urlField with
  | none => ProxyOutcome.clientError 400 "Missing target URL"
  | some url =>
    if url = "" then ProxyOutcome.clientError 400 "Missing target URL"
    else
      match parseURL url with
      | none => ProxyOutcome.clientError 400 "Invalid URL format"
      | some u =>
        match fetch url (prepareSafeHeaders reqHeaders u.origin) with
        | Except.error ne =>
          ProxyOutcome.gatewayError 502 "Network Error - Could not reach target"
            ne.message ne.cause
        | Except.ok resp =>
          ProxyOutcome.forwarded resp.status (forwardResponseHeaders resp.headers)
            resp.bodyText

/-- Claim-side definition for C4, following the claim's words rather than
the source: the forwarded map "equals the caller-supplied headers with the
conflicting headers host, content-length, and connection removed" — read,
as HTTP header names are, case-insensitively — with the three defaults
added exactly when the caller did not supply those headers. -/
def specForwardedHeaders (hs : List (String × String)) (origin : String) :
    List (String × String) :=
  let stripped := hs.filter (fun p =>
    lowerStr p.1 ≠ "host" ∧ lowerStr p.1 ≠ "content-length" ∧ lowerStr p.1 ≠ "connection")
  let s1 :=
    if stripped.any (fun p => lowerStr p.1 = "origin") then stripped
    else stripped ++ [("Origin", origin)]
  let s2 :=
    if s1.any (fun p => lowerStr p.1 = "referer") then s1
    else s1 ++ [("Referer", origin ++ "/")]
  if s2.any (fun p => lowerStr p.1 = "user-agent") then s2
  else s2 ++ [("User-Agent", defaultUserAgent)]

/-! ## Network Bridge — client half and cookie round-trip

Source: `proxyFetch` in `src/unnamed/part_006` lines 91–132 (identical
cookie logic in `src/unnamed/part_007` lines 78–120): after a successful
`/api/proxy` call the client reads `X-Set-Cookie` from the response
headers, and when it is present (truthy) it replaces the response's
`headers` object with one whose `get` returns the `X-Set-Cookie` value for
the name `set-cookie` (case-insensitively) and otherwise defers to the
original headers. -/

/-- Fetch `Headers.get`: case-insensitive lookup of the first header with
the given name (multi-value joining is irrelevant to the headers used
here). -/
def headersGet (hs : List (String × String)) (name : String) : Option String :=
  (hs.find? (fun p => lowerStr p.1 = lowerStr name)).map (fun p => p.2)

/-- Modelled from the browser Fetch specification (platform, not repository
code): `Set-Cookie` is a forbidden response-header name, so the headers a
script can see never include it. -/
def browserVisibleHeaders (hs : List (String × String)) : List (String × String) :=
  hs.filter (fun p => lowerStr p.1 ≠ "set-cookie")

/-- Mirror of the `proxyFetch` cookie re-exposure: the response object's
`headers.get`-shaped accessor after `proxyFetch` returns.  `rh` is the
script-visible header list of the `/api/proxy` response. -/
def proxyFetchHeadersGet (rh : List (String × String)) (name : String) :
    Option String :=
  match headersGet rh "X-Set-Cookie" with
  | some xsc =>
    if xsc = "" then headersGet rh name
    else if lowerStr name = "set-cookie" then some xsc
    else headersGet rh name
  | none => headersGet rh name

/-! ## Iframe host message handling and the Persistent Config Channel

Source: `src/components/widgets/CustomCodeWidget.tsx`.  The host's
`handleMessage` (lines 336–389) first checks `event.source !==
iframeRef.current?.contentWindow` and returns for any message not
originating from this instance's own iframe, then dispatches on the
message type.  Windows are modelled by numeric identities: `own` is
`iframeRef.current?.contentWindow` (`none` when the iframe ref is unset)
and `src` is `event.source` (`none` for a null source); the persisted
config blob is modelled as a JSON object of numeric fields, which is all
the claims need of an opaque JSON value. -/

/-- An opaque JSON-object config blob (field name / numeric value). -/
abbrev CustomData := List (String × Int)

/-- Messages the iframe posts to the host (the `data.type` dispatch). -/
inductive WidgetMessage where
  | ready
  | setCustomDataMsg (d : CustomData)
  | reportError (e : String)
  | consoleMsg (method : String) (args : List String)
  | proxyFetchMsg (id url : String)
deriving Repr, DecidableEq

/-- Host-side widget state touched by the handler. -/
structure HostState where
  isReady : Bool
  crashError : Option String
deriving Repr, DecidableEq

/-- Externally visible actions the handler performs. -/
inductive HostEffect where
  | postInit (code : String) (customData : CustomData)
  | persistCustomData (d : CustomData)
  | logConsole (method : String)
  | doProxyFetch (id url : String)
deriving Repr, DecidableEq

/-- Mirror of `handleMessage`: drop any event whose source window is not
this instance's own iframe `contentWindow`; otherwise dispatch.  `READY`
marks ready and posts the initial code and data; `SET_CUSTOM_DATA`
forwards `data.data` to `onSetCustomData` unchanged; `REPORT_ERROR`
records the crash message; `CONSOLE` logs; `PROXY_FETCH` performs the
bridge fetch. -/
def handleMessage (own src : Option Nat) (code : String) (customData : CustomData)
    (msg : Option WidgetMessage) (st : HostState) : HostState × List HostEffect :=
  if own.isSome ∧ src = own then
    match msg with
    | none => (st, [])
    | some WidgetMessage.ready =>
      ({ st with isReady := true }, [HostEffect.postInit code customData])
    | some (WidgetMessage.setCustomDataMsg d) => (st, [HostEffect.persistCustomData d])
    | some (WidgetMessage.reportError e) => ({ st with crashError := some e }, [])
    | some (WidgetMessage.consoleMsg m _) => (st, [HostEffect.logConsole m])
    | some (WidgetMessage.proxyFetchMsg i u) => (st, [HostEffect.doProxyFetch i u])
  else (st, [])

/-- Mirror of the iframe-side `setCustomData` (lines 255–257): post
`SET_CUSTOM_DATA` carrying the new blob, untouched. -/
def widgetSetCustomData (newData : CustomData) : WidgetMessage :=
  WidgetMessage.setCustomDataMsg newData

/-- JavaScript object spread `{...prev, ...next}` — the merge the engine
does NOT perform on the generated code's behalf. -/
def objMerge (prev next : CustomData) : CustomData :=
  prev.filter (fun p => ¬ next.any (fun q => q.1 = p.1)) ++ next

/-- The widget configuration record, `UniversalWidgetConfig` in
`src/types.ts` lines 33–45 (the optional fields as options; `customData`
defaults to the empty object where the source writes
`config.customData || {}`). -/
structure UniversalWidgetConfig where
  endpoint : String
  method : String
  headers : List (String × String)
  jsonPath : String
  refreshInterval : Nat
  label : String
  unit : Option String
  icon : Option String
  customCode : Option String
  customData : CustomData
deriving Repr, DecidableEq

/-- A widget record of the dashboard state (`src/types.ts` lines 47–59):
the fields `updateWidgetConfig` touches. -/
structure Widget where
  id : String
  title : String
  config : UniversalWidgetConfig
deriving Repr, DecidableEq

/-- Mirror of `handleCustomDataUpdate` in `src/unnamed/part_008` lines
325–332 (the `UniversalWidget` hosting the custom-code widget, which passes
it as `onSetCustomData`): spread the current config and set `customData`
to the new blob — every other field kept, the blob replaced wholesale. -/
def handleCustomDataUpdate (config : UniversalWidgetConfig) (newData : CustomData) :
    UniversalWidgetConfig :=
  { config with customData := newData }

/-- Mirror of `updateWidgetConfig` in `src/App.tsx` lines 328–333 (reached
through `onUpdate={(newConfig) => updateWidgetConfig(widget.id, newConfig)}`
at line 735): replace the matching widget's config with the new one (and
its title with the new label), leaving every other widget untouched. -/
def updateWidgetConfig (widgets : List Widget) (id : String)
    (newConfig : UniversalWidgetConfig) : List Widget :=
  widgets.map (fun w =>
    if w.id = id then { w with config := newConfig, title := newConfig.label } else w)

/-- Mirror of the `POST /api/config` route, `src/server.js` lines 75–86,
reached by the debounced auto-save of `src/App.tsx` lines 262–285 that
posts the whole dashboard state: no body is a 400 with nothing written;
otherwise `fs.writeFile` replaces the config file's contents with the
posted state.  Returns the stored state and whether the write happened. -/
def apiPostConfig (body : Option (List Widget)) (stored : Option (List Widget)) :
    Option (List Widget) × Bool :=
  match body with
  | none => (stored, false)
  | some d => (some d, true)

/-! ## Code Loader

Source: the `GeneratedComponent` `useMemo` blocks —
`src/components/widgets/CustomCodeWidget.tsx` lines 542–587 and
`src/unnamed/part_006` lines 137–194 (in-process revisions, dependency list
`[code, onReportError]`), and the iframe `WidgetRunner` in
`src/components/widgets/CustomCodeWidget.tsx` lines 260–271 (dependency
list `[code]`).  The `new Function(...)` platform primitive — construct a
callable from the source text or throw a `SyntaxError` — is a parameter
`construct : String → Except String α` of the model, so every theorem holds
for every possible behaviour of the platform compiler. -/

/-- Modelled from the platform: the whitespace class of JavaScript
`String.prototype.trim` (space, tab, line feed, carriage return, vertical
tab, form feed, no-break space; the exotic Unicode members are irrelevant
here). -/
def isJsWhitespace (c : Char) : Bool :=
  c = ' ' ∨ c = '\t' ∨ c = '\n' ∨ c = '\r' ∨ c.toNat = 11 ∨ c.toNat = 12 ∨ c.toNat = 160

/-- Modelled from the platform `String.prototype.trim`: drop leading and
trailing whitespace. -/
def jsTrim (s : String) : String :=
  ⟨(((s.data.dropWhile isJsWhitespace).reverse).dropWhile isJsWhitespace).reverse⟩

/-- Result of the Code Loader: the empty-source sentinel (`null` in the
source), a compiled factory, or the compile-error fallback carrying the
raw message. -/
inductive LoadResult (α : Type) where
  | empty : LoadResult α
  | factory (f : α) : LoadResult α
  | compileFailure (message : String) : LoadResult α

/-- Mirror of the `useMemo` body: empty or whitespace-only source yields
the sentinel (`if (!code || !code.trim()) return null`); otherwise the
callable is constructed from the source, and a construction throw is
caught and becomes the compile-error result carrying the raw message. -/
def compileLoad {α : Type} (construct : String → Except String α) (code : String) :
    LoadResult α :=
  if code = "" ∨ jsTrim code = "" then LoadResult.empty
  else
    match construct code with
    | Except.ok f => LoadResult.factory f
    | Except.error e => LoadResult.compileFailure e

/-- The two repair affordances offered to the external collaborator. -/
inductive ReportAction where
  | reportErrorOnly (message : String)
  | reportWithCode (message : String) (code : String)
deriving Repr, DecidableEq

/-- What the widget renders for a load result (plus the boundary's crash
fallback): the inert empty state, the running factory, the
compilation-error fallback, or the runtime-crash fallback. -/
inductive WidgetView (α : Type) where
  | emptyView
  | running (f : α)
  | compileErrorView (message : String) (actions : List ReportAction)
  | crashedView (message : String) (actions : List ReportAction)

/-- Mirror of the render dispatch in `part_006` lines 168–207: the sentinel
renders the inert empty state; a factory runs; the compile-error branch
renders the fallback with the raw message and the two report buttons
(`onReportError(err.message)` and `onReportError(err.message, code)`). -/
def renderLoad {α : Type} (code : String) (lr : LoadResult α) : WidgetView α :=
  match lr with
  | LoadResult.empty => WidgetView.emptyView
  | LoadResult.factory f => WidgetView.running f
  | LoadResult.compileFailure m =>
    WidgetView.compileErrorView m
      [ReportAction.reportErrorOnly m, ReportAction.reportWithCode m code]

/-- The text each view displays (captions and the message); the report
actions carry their payloads to the callback without displaying them. -/
def displayedText {α : Type} : WidgetView α → List String
  | WidgetView.emptyView => ["Empty Widget"]
  | WidgetView.running _ => []
  | WidgetView.compileErrorView m _ => ["Code Compilation Error:", m]
  | WidgetView.crashedView m _ => ["Widget Crashed", m]

/-- Mirror of `WidgetErrorBoundary.render`: in the Crashed state render the
crash fallback with the recorded message and the two report buttons,
otherwise render the children. -/
def boundaryRender {α : Type} (st : ErrorBoundaryState) (code : String)
    (child : WidgetView α) : WidgetView α :=
  if st.hasError then
    WidgetView.crashedView st.errorMsg
      [ReportAction.reportErrorOnly st.errorMsg,
        ReportAction.reportWithCode st.errorMsg code]
  else child

/-! ## Compilation memoization

`useMemo(compute, deps)` recomputes exactly when the dependency list
changed between renders; the model tracks the cached dependencies/value
and a compute counter (the compile-counter spy of the spec's P1).  The
iframe revision lists `[code]` as dependencies; the in-process revisions
list `[code, onReportError]`, the callback identity being modelled by a
number. -/

/-- The memo cell across renders: cached `(deps, value)` plus how many
times the compute function has run. -/
structure MemoState (δ α : Type) where
  cache : Option (δ × α)
  computeCount : Nat

/-- One render's `useMemo(f, d)`: reuse the cached value when the deps are
unchanged, otherwise run `f` and cache the result. -/
def useMemoStep {δ α : Type} [DecidableEq δ] (f : δ → α) (d : δ) (s : MemoState δ α) :
    α × MemoState δ α :=
  match s.cache with
  | some (d0, v0) =>
    if d = d0 then (v0, s)
    else (f d, ⟨some (d, f d), s.computeCount + 1⟩)
  | none => (f d, ⟨some (d, f d), s.computeCount + 1⟩)

/-- A sequence of renders with the given dependency values. -/
def memoRun {δ α : Type} [DecidableEq δ] (f : δ → α) :
    List δ → MemoState δ α → MemoState δ α
  | [], s => s
  | d :: ds, s => memoRun f ds (useMemoStep f d s).2

/-- The in-process revisions' memo compute keyed by `[code, onReportError]`
(`src/components/widgets/CustomCodeWidget.tsx` line 587, `src/unnamed/
part_006` line 194): the compiled result itself is a function of the source
alone — the callback only feeds the error-fallback buttons. -/
def inProcessCompute {α : Type} (construct : String → Except String α)
    (deps : String × Nat) : LoadResult α :=
  compileLoad construct deps.1

/-! ## Supporting lemmas -/

lemma spacedBy_tenHzTimes (n : Nat) : ∀ t : Nat, spacedBy 100 t (tenHzTimes (t + 100) n) := by
  induction n with
  | zero => intro t; trivial
  | succ n ih =>
    intro t
    exact ⟨Nat.le_refl _, ih (t + 100)⟩

/-- Invariant-based safety of the guard under calls spaced at least 100 ms
apart: the counter can never climb past 11 inside a window, so any
threshold of at least 11 is never tripped. -/
lemma guardRun_ok_of_spaced (T : Nat) (msg : String) (hT : 11 ≤ T) :
    ∀ (ts : List Nat) (s : RenderWindow) (prev : Nat),
      s.lastRenderTime ≤ prev →
      s.renderCount * 100 ≤ prev - s.lastRenderTime + 100 →
      spacedBy 100 prev ts →
      ∃ s2, guardRun T msg s ts = Except.ok s2 := by
  intro ts
  induction ts with
  | nil => exact fun s prev _ _ _ => ⟨s, rfl⟩
  | cons t ts ih =>
    intro s prev h1 h2 h3
    obtain ⟨hgap, hrest⟩ := h3
    by_cases hres : t - s.lastRenderTime > 1000
    · obtain ⟨s2, hs2⟩ :=
        ih ⟨1, t⟩ t (Nat.le_refl t) (by show 1 * 100 ≤ t - t + 100; omega) hrest
      exact ⟨s2, by simpa [guardRun, guardStep, hres] using hs2⟩
    · have hc : s.renderCount + 1 ≤ 11 := by omega
      have hnot : ¬ s.renderCount + 1 > T := by omega
      obtain ⟨s2, hs2⟩ :=
        ih ⟨s.renderCount + 1, s.lastRenderTime⟩ t
          (by show s.lastRenderTime ≤ t; omega)
          (by show (s.renderCount + 1) * 100 ≤ t - s.lastRenderTime + 100; omega) hrest
      exact ⟨s2, by simpa [guardRun, guardStep, hres, hnot] using hs2⟩

lemma guardRun_tenHz_ok (T : Nat) (msg : String) (hT : 11 ≤ T) (t0 n : Nat) :
    ∃ s2, guardRun T msg (guardMount t0) (tenHzTimes t0 n) = Except.ok s2 := by
  cases n with
  | zero => exact ⟨guardMount t0, rfl⟩
  | succ n =>
    have hstep : guardStep T msg (guardMount t0) t0 = Except.ok ⟨1, t0⟩ := by
      have h1 : ¬ t0 - t0 > 1000 := by omega
      have h2 : ¬ 0 + 1 > T := by omega
      simp [guardStep, guardMount, h1, h2]
    obtain ⟨s2, hs2⟩ :=
      guardRun_ok_of_spaced T msg hT (tenHzTimes (t0 + 100) n) ⟨1, t0⟩ t0
        (Nat.le_refl t0) (by show 1 * 100 ≤ t0 - t0 + 100; omega)
        (spacedBy_tenHzTimes n t0)
    refine ⟨s2, ?_⟩
    simpa [tenHzTimes, guardRun, hstep] using hs2

lemma hHas_append_single (hs : List (String × String)) (a b k : String) :
    hHas (hs ++ [(a, b)]) k = (hHas hs k || decide (a = k)) := by
  simp [hHas]

lemma hHas_hDelete_self (hs : List (String × String)) (k : String) :
    hHas (hDelete hs k) k = false := by
  simp only [hHas, hDelete, List.any_eq_false]
  intro p hp
  simp only [List.mem_filter] at hp
  simpa using hp.2

lemma hHas_hDelete_ne (hs : List (String × String)) (k k0 : String) (h : k ≠ k0) :
    hHas (hDelete hs k0) k = hHas hs k := by
  rw [Bool.eq_iff_iff]
  simp only [hHas, hDelete, List.any_eq_true, List.mem_filter, decide_eq_true_eq]
  constructor
  · rintro ⟨p, ⟨hp, _⟩, hpk⟩
    exact ⟨p, hp, hpk⟩
  · rintro ⟨p, hp, hpk⟩
    subst hpk
    refine ⟨p, ⟨hp, ?_⟩, rfl⟩
    simpa using h

lemma mem_hDelete_iff (hs : List (String × String)) (k0 : String)
    (p : String × String) : p ∈ hDelete hs k0 ↔ p ∈ hs ∧ p.1 ≠ k0 := by
  simp [hDelete, List.mem_filter]

lemma mem_hSet_of_ne (hs : List (String × String)) (k v : String)
    (p : String × String) (hp : p ∈ hs) (hne : p.1 ≠ k) : p ∈ hSet hs k v := by
  unfold hSet
  split
  · exact List.mem_map.mpr ⟨p, hp, by rw [if_neg hne]⟩
  · exact List.mem_append_left _ hp

lemma self_mem_hSet (hs : List (String × String)) (k v : String) :
    (k, v) ∈ hSet hs k v := by
  unfold hSet
  split
  · next h =>
    simp only [List.any_eq_true, decide_eq_true_eq] at h
    obtain ⟨q, hq, hqk⟩ := h
    exact List.mem_map.mpr ⟨q, hq, by rw [if_pos hqk]⟩
  · exact List.mem_append_right _ (by simp)

lemma mem_hSet_elim (hs : List (String × String)) (k v : String)
    (p : String × String) (hp : p ∈ hSet hs k v) :
    (p ∈ hs ∧ p.1 ≠ k) ∨ p = (k, v) := by
  unfold hSet at hp
  split at hp
  · obtain ⟨q, hq, hfq⟩ := List.mem_map.mp hp
    by_cases hqk : q.1 = k
    · rw [if_pos hqk] at hfq
      exact Or.inr hfq.symm
    · rw [if_neg hqk] at hfq
      rw [← hfq]
      exact Or.inl ⟨hq, hqk⟩
  · next h =>
    rcases List.mem_append.mp hp with h2 | h2
    · rw [Bool.not_eq_true, List.any_eq_false] at h
      have hk := h p h2
      exact Or.inl ⟨h2, by simpa using hk⟩
    · exact Or.inr (by simpa using h2)

lemma hGet_append_single_ne (hs : List (String × String)) (k v k0 : String)
    (h : k ≠ k0) : hGet (hs ++ [(k, v)]) k0 = hGet hs k0 := by
  unfold hGet
  congr 1
  induction hs with
  | nil =>
    rw [List.nil_append, List.find?_cons_of_neg _ (by simpa using h)]
  | cons q hs ih =>
    rw [List.cons_append]
    by_cases hq : q.1 = k0
    · rw [List.find?_cons_of_pos _ (by simpa using hq),
        List.find?_cons_of_pos _ (by simpa using hq)]
    · rw [List.find?_cons_of_neg _ (by simpa using hq),
        List.find?_cons_of_neg _ (by simpa using hq)]
      exact ih

lemma hGet_map_replace_ne (hs : List (String × String)) (k v k0 : String)
    (h : k ≠ k0) :
    hGet (hs.map (fun p => if p.1 = k then (k, v) else p)) k0 = hGet hs k0 := by
  unfold hGet
  induction hs with
  | nil => rfl
  | cons q hs ih =>
    rw [List.map_cons]
    by_cases hqk : q.1 = k
    · rw [if_pos hqk]
      rw [List.find?_cons_of_neg _ (by simpa using h),
        List.find?_cons_of_neg _ (by simp only [decide_eq_true_eq]; rw [hqk]; exact h)]
      exact ih
    · rw [if_neg hqk]
      by_cases hq0 : q.1 = k0
      · rw [List.find?_cons_of_pos _ (by simpa using hq0),
          List.find?_cons_of_pos _ (by simpa using hq0)]
      · rw [List.find?_cons_of_neg _ (by simpa using hq0),
          List.find?_cons_of_neg _ (by simpa using hq0)]
        exact ih

lemma hGet_hSet_ne (hs : List (String × String)) (k v k0 : String) (h : k ≠ k0) :
    hGet (hSet hs k v) k0 = hGet hs k0 := by
  unfold hSet
  split
  · exact hGet_map_replace_ne hs k v k0 h
  · exact hGet_append_single_ne hs k v k0 h

lemma hGet_hDelete_ne (hs : List (String × String)) (k k0 : String) (h : k ≠ k0) :
    hGet (hDelete hs k0) k = hGet hs k := by
  unfold hGet hDelete
  congr 1
  induction hs with
  | nil => rfl
  | cons q hs ih =>
    by_cases hq0 : q.1 = k0
    · rw [List.filter_cons_of_neg (by simp [hq0]),
        List.find?_cons_of_neg _
          (by simp only [decide_eq_true_eq]; rw [hq0]; exact fun h2 => h h2.symm)]
      exact ih
    · rw [List.filter_cons_of_pos (by simp [hq0])]
      by_cases hqk : q.1 = k
      · rw [List.find?_cons_of_pos _ (by simpa using hqk),
          List.find?_cons_of_pos _ (by simpa using hqk)]
      · rw [List.find?_cons_of_neg _ (by simpa using hqk),
          List.find?_cons_of_neg _ (by simpa using hqk)]
        exact ih

lemma hTruthy_hSet_ne (hs : List (String × String)) (k v k0 : String) (h : k ≠ k0) :
    hTruthy (hSet hs k v) k0 = hTruthy hs k0 := by
  unfold hTruthy
  rw [hGet_hSet_ne hs k v k0 h]

lemma hTruthy_hDelete_ne (hs : List (String × String)) (k k0 : String) (h : k ≠ k0) :
    hTruthy (hDelete hs k0) k = hTruthy hs k := by
  unfold hTruthy
  rw [hGet_hDelete_ne hs k k0 h]

lemma hHas_hSet_ne (hs : List (String × String)) (k v k0 : String) (h : k ≠ k0) :
    hHas (hSet hs k v) k0 = hHas hs k0 := by
  unfold hSet
  split
  · rw [Bool.eq_iff_iff]
    simp only [hHas, List.any_eq_true, List.mem_map, decide_eq_true_eq]
    constructor
    · rintro ⟨p, ⟨q, hq, hfq⟩, hpk⟩
      by_cases hqk : q.1 = k
      · rw [if_pos hqk] at hfq
        rw [← hfq] at hpk
        exact absurd hpk h
      · rw [if_neg hqk] at hfq
        rw [← hfq] at hpk
        exact ⟨q, hq, hpk⟩
    · rintro ⟨q, hq, hqk0⟩
      refine ⟨q, ⟨q, hq, ?_⟩, hqk0⟩
      rw [if_neg]
      intro hqk
      exact h (hqk.symm.trans hqk0)
  · rw [hHas_append_single]
    simp [h]

lemma injectIfMissing_mem_of_ne (hs : List (String × String)) (k1 k2 v : String)
    (p : String × String) (hp : p ∈ hs) (hne : p.1 ≠ k1) :
    p ∈ injectIfMissing hs k1 k2 k1 v := by
  unfold injectIfMissing
  split
  · exact mem_hSet_of_ne hs k1 v p hp hne
  · exact hp

lemma injectIfMissing_mem_of_truthy (hs : List (String × String)) (k1 k2 v : String)
    (p : String × String) (hp : p ∈ hs)
    (ht : hTruthy hs k1 = true ∨ hTruthy hs k2 = true) :
    p ∈ injectIfMissing hs k1 k2 k1 v := by
  unfold injectIfMissing
  rw [if_neg]
  · exact hp
  · rintro ⟨hg1, hg2⟩
    rcases ht with ht | ht
    · exact hg1 ht
    · exact hg2 ht

lemma injectIfMissing_mem_inject (hs : List (String × String)) (k1 k2 v : String)
    (h1 : hTruthy hs k1 = false) (h2 : hTruthy hs k2 = false) :
    (k1, v) ∈ injectIfMissing hs k1 k2 k1 v := by
  unfold injectIfMissing
  rw [if_pos ⟨by simp [h1], by simp [h2]⟩]
  exact self_mem_hSet hs k1 v

lemma injectIfMissing_mem_elim (hs : List (String × String)) (k1 k2 v : String)
    (p : String × String) (hp : p ∈ injectIfMissing hs k1 k2 k1 v) :
    p ∈ hs ∨ (p = (k1, v) ∧ hTruthy hs k1 = false ∧ hTruthy hs k2 = false) := by
  unfold injectIfMissing at hp
  by_cases hg : ¬ hTruthy hs k1 = true ∧ ¬ hTruthy hs k2 = true
  · rw [if_pos hg] at hp
    rcases mem_hSet_elim hs k1 v p hp with ⟨h2, _⟩ | h2
    · exact Or.inl h2
    · exact Or.inr ⟨h2, by simpa using hg.1, by simpa using hg.2⟩
  · rw [if_neg hg] at hp
    exact Or.inl hp

lemma injectIfMissing_key_elim (hs : List (String × String)) (k1 k2 v : String)
    (p : String × String) (hp : p ∈ injectIfMissing hs k1 k2 k1 v)
    (hk : p.1 = k1) (h1 : hTruthy hs k1 = false) (h2 : hTruthy hs k2 = false) :
    p = (k1, v) := by
  unfold injectIfMissing at hp
  rw [if_pos ⟨by simp [h1], by simp [h2]⟩] at hp
  rcases mem_hSet_elim hs k1 v p hp with ⟨_, hne⟩ | h3
  · exact absurd hk hne
  · exact h3

lemma injectIfMissing_hHas_ne (hs : List (String × String)) (k1 k2 v k0 : String)
    (h : k1 ≠ k0) : hHas (injectIfMissing hs k1 k2 k1 v) k0 = hHas hs k0 := by
  unfold injectIfMissing
  split
  · exact hHas_hSet_ne hs k1 v k0 h
  · rfl

lemma injectIfMissing_hTruthy_ne (hs : List (String × String)) (k1 k2 v k0 : String)
    (h : k1 ≠ k0) :
    hTruthy (injectIfMissing hs k1 k2 k1 v) k0 = hTruthy hs k0 := by
  unfold injectIfMissing
  split
  · exact hTruthy_hSet_ne hs k1 v k0 h
  · rfl

lemma mem_resSetHeader (hs : List (String × String)) (k v : String)
    (p : String × String) (hp : p ∈ resSetHeader hs k v) : p ∈ hs ∨ p = (k, v) := by
  unfold resSetHeader at hp
  rcases List.mem_append.mp hp with h | h
  · exact Or.inl (List.mem_filter.mp h).1
  · exact Or.inr (by simpa using h)

/-- No header forwarded from an upstream list free of `set-cookie` and
`x-set-cookie` names carries either of those names. -/
lemma forwardResponseHeaders_aux (base : List (String × String)) :
    ∀ acc : List (String × String),
      (∀ p ∈ acc, lowerStr p.1 ≠ "set-cookie" ∧ lowerStr p.1 ≠ "x-set-cookie") →
      (∀ p ∈ base, lowerStr p.1 ≠ "set-cookie" ∧ lowerStr p.1 ≠ "x-set-cookie") →
      ∀ p ∈ List.foldl fwdStep acc base,
        lowerStr p.1 ≠ "set-cookie" ∧ lowerStr p.1 ≠ "x-set-cookie" := by
  induction base with
  | nil => intro acc ha _ p hp; exact ha p hp
  | cons q base ih =>
    intro acc ha hb p hp
    have hq := hb q (List.mem_cons_self q base)
    have hstep : ∀ r ∈ fwdStep acc q,
        lowerStr r.1 ≠ "set-cookie" ∧ lowerStr r.1 ≠ "x-set-cookie" := by
      intro r hr
      unfold fwdStep at hr
      split at hr
      · exact ha r hr
      · rw [if_neg hq.1] at hr
        rcases mem_resSetHeader acc q.1 q.2 r hr with h | h
        · exact ha r h
        · rw [h]; exact hq
    exact ih (fwdStep acc q) hstep (fun r hr => hb r (List.mem_cons_of_mem q hr)) p hp

lemma headersGet_append_of_no_match (A rest : List (String × String)) (name : String)
    (h : ∀ p ∈ A, lowerStr p.1 ≠ lowerStr name) :
    headersGet (A ++ rest) name = headersGet rest name := by
  unfold headersGet
  congr 1
  induction A with
  | nil => rfl
  | cons q A ih =>
    rw [List.cons_append, List.find?_cons_of_neg]
    · exact ih (fun p hp => h p (List.mem_cons_of_mem q hp))
    · simpa using h q (List.mem_cons_self q A)

lemma memoRun_cached {δ α : Type} [DecidableEq δ] (f : δ → α) (d : δ) (v : α) :
    ∀ (l : List δ) (s : MemoState δ α), s.cache = some (d, v) → (∀ x ∈ l, x = d) →
      memoRun f l s = s := by
  intro l
  induction l with
  | nil => intro s _ _; rfl
  | cons x l ih =>
    intro s hs hl
    have hx : x = d := hl x (List.mem_cons_self x l)
    have hstep : (useMemoStep f x s).2 = s := by
      simp [useMemoStep, hs, hx]
    rw [memoRun, hstep]
    exact ih s hs (fun y hy => hl y (List.mem_cons_of_mem x hy))

lemma memoRun_const_count {δ α : Type} [DecidableEq δ] (f : δ → α) (d : δ)
    (l : List δ) (hl : ∀ x ∈ l, x = d) :
    (memoRun f l ⟨none, 0⟩).computeCount ≤ 1 := by
  cases l with
  | nil => exact Nat.zero_le 1
  | cons x l =>
    have hx : x = d := hl x (List.mem_cons_self x l)
    have hstep : (useMemoStep f x (⟨none, 0⟩ : MemoState δ α)).2
        = ⟨some (x, f x), 1⟩ := by
      simp [useMemoStep]
    rw [memoRun, hstep,
      memoRun_cached f x (f x) l ⟨some (x, f x), 1⟩ rfl
        (fun y hy => (hl y (List.mem_cons_of_mem x hy)).trans hx.symm)]

/-! ## Claim theorems, counterexamples and witnesses -/

set_option maxRecDepth 8000 in
/-- C1: the Render-Frequency Guard counts renders in a rolling 1-second
window, resetting to `{1, now}` when more than 1000 ms have elapsed.  A
factory driven at more than 200 calls inside one simulated second (201
calls at 1 ms intervals, every timestamp below 1000 ms) trips the guard of
both revisions (threshold 170 in `part_006`, threshold 25 in `part_007`)
with a `RenderLoopError` before the window's 1000 ms elapse, while driving
the same guard at 10 calls per second never raises, for any start time and
any duration, and for any threshold of at least 11 (so in particular for
both revisions). -/
theorem renderGuard_window_c1 :
    innerGuardRun (guardMount 0) burstTimes = Except.error innerGuardMsg
    ∧ renderGuardRun (guardMount 0) burstTimes = Except.error renderGuardMsg
    ∧ (∀ t ∈ burstTimes, t < 1000)
    ∧ (∀ T msg t0 n, 11 ≤ T →
        ∃ s2, guardRun T msg (guardMount t0) (tenHzTimes t0 n) = Except.ok s2) := by
  refine ⟨rfl, rfl, by decide, ?_⟩
  intro T msg t0 n hT
  exact guardRun_tenHz_ok T msg hT t0 n

/-- Witness for C1: a concrete slow-driven run (threshold 170, start time 5,
three calls) succeeds, instantiating the universally quantified part of the
theorem at a concrete input. -/

theorem renderGuard_window_c1_witness :
    ∃ s2, guardRun 170 innerGuardMsg (guardMount 5) (tenHzTimes 5 3) = Except.ok s2 :=
  renderGuard_window_c1.2.2.2 170 innerGuardMsg 5 3 (by decide)

/-- Counterexample to C2: in the `part_007` revision the reset key is the
length plus the first 20 characters, so the two distinct sources below
(21 copies of letter a followed by X versus Y) share a reset key, and a
Crashed boundary holding message boom is NOT cleared when the source
changes from one to the other — supplying a new, different source string
does not always clear the recorded error. -/
theorem boundary_reset_c2_counterexample :
    "aaaaaaaaaaaaaaaaaaaaX" ≠ "aaaaaaaaaaaaaaaaaaaaY"
    ∧ codeHash007 "aaaaaaaaaaaaaaaaaaaaX" = codeHash007 "aaaaaaaaaaaaaaaaaaaaY"
    ∧ boundaryDidUpdate (codeHash007 "aaaaaaaaaaaaaaaaaaaaX")
        (codeHash007 "aaaaaaaaaaaaaaaaaaaaY")
        (getDerivedStateFromError "boom")
      = getDerivedStateFromError "boom" := by
  refine ⟨by decide, ?_, ?_⟩ <;> rfl

/-- C2 (amended): the boundary leaves Crashed exactly when its code-derived
reset key changes.  Concretely: (i) any update in which the key is
unchanged — resizing, prop updates, unrelated host re-renders, all of which
repeat the same key — leaves the state untouched; (ii) in the `part_006`
revision the key is the full source value, so any different source (even
one that will fail again) clears the recorded message before the next
render attempt; (iii) in the iframe revision the host clears the crash
record whenever the source value changes; (iv) in the `part_007` revision
the key is the length plus the first 20 characters, so a new source clears
the record exactly when that key differs (and, per the counterexample, not
otherwise). -/
theorem boundary_reset_c2 :
    (∀ (k : String) (s : ErrorBoundaryState), boundaryDidUpdate k k s = s)
    ∧ (∀ (c c2 : String) (s : ErrorBoundaryState), c ≠ c2 →
        boundaryDidUpdate c c2 s = ⟨false, ""⟩)
    ∧ (∀ (c c2 : String) (e : Option String), c ≠ c2 →
        iframeCodeChangeReset c c2 e = none)
    ∧ (∀ (c c2 : String) (s : ErrorBoundaryState), codeHash007 c ≠ codeHash007 c2 →
        boundaryDidUpdate (codeHash007 c) (codeHash007 c2) s = ⟨false, ""⟩) := by
  refine ⟨fun k s => by simp [boundaryDidUpdate], fun c c2 s h => by simp [boundaryDidUpdate, h],
    fun c c2 e h => by simp [iframeCodeChangeReset, h],
    fun c c2 s h => by simp [boundaryDidUpdate, h]⟩

/-- Witness for C2 (amended): a Crashed boundary in the `part_006` revision
is cleared by a concrete different source. -/
theorem boundary_reset_c2_witness :
    "return 1" ≠ "return 2"
    ∧ boundaryDidUpdate "return 1" "return 2" (getDerivedStateFromError "boom")
      = ⟨false, ""⟩ :=
  ⟨by decide, boundary_reset_c2.2.1 "return 1" "return 2" _ (by decide)⟩

/-- C5: the proxy responds 400 with an `{error}` body when the target URL is
missing (absent or empty) or not well-formed, and in those cases the result
does not depend on the upstream fetch at all (no upstream request is
attempted); it responds with the distinct 502 shape
`{error, details, cause?}` carrying the raw message and the optional
stringified cause exactly when the upstream fetch fails at the network
level; and an upstream response — whatever its HTTP status, error or not —
is forwarded back with its own status, never converted to the 502 shape. -/
theorem proxy_errors_c5 :
    (∀ hs f, proxyHandle none hs f = ProxyOutcome.clientError 400 "Missing target URL")
    ∧ (∀ hs f, proxyHandle (some "") hs f
        = ProxyOutcome.clientError 400 "Missing target URL")
    ∧ (∀ url hs f, url ≠ "" → parseURL url = none →
        proxyHandle (some url) hs f = ProxyOutcome.clientError 400 "Invalid URL format")
    ∧ (∀ url hs f g, parseURL url = none →
        proxyHandle (some url) hs f = proxyHandle (some url) hs g)
    ∧ (∀ url u hs f ne, parseURL url = some u →
        f url (prepareSafeHeaders hs u.origin) = Except.error ne →
        proxyHandle (some url) hs f
          = ProxyOutcome.gatewayError 502 "Network Error - Could not reach target"
              ne.message ne.cause)
    ∧ (∀ url u hs f resp, parseURL url = some u →
        f url (prepareSafeHeaders hs u.origin) = Except.ok resp →
        proxyHandle (some url) hs f
          = ProxyOutcome.forwarded resp.status (forwardResponseHeaders resp.headers)
              resp.bodyText) := by
  have hempty : parseURL "" = none := by decide
  refine ⟨fun hs f => rfl, fun hs f => rfl, ?_, ?_, ?_, ?_⟩
  · intro url hs f hne hp
    simp [proxyHandle, hne, hp]
  · intro url hs f g hp
    by_cases hne : url = ""
    · subst hne; rfl
    · simp [proxyHandle, hne, hp]
  · intro url u hs f ne hp hf
    have hne : url ≠ "" := by
      intro h
      rw [h, hempty] at hp
      cases hp
    simp [proxyHandle, hne, hp, hf]
  · intro url u hs f resp hp hf
    have hne : url ≠ "" := by
      intro h
      rw [h, hempty] at hp
      cases hp
    simp [proxyHandle, hne, hp, hf]

/-- Witness for C5: a concrete network failure against
`http://example.test/api` produces the concrete 502 body. -/
theorem proxy_errors_c5_witness :
    proxyHandle (some "http://example.test/api") []
      (fun _ _ => Except.error ⟨"fetch failed", some "connect ECONNREFUSED"⟩)
      = ProxyOutcome.gatewayError 502 "Network Error - Could not reach target"
          "fetch failed" (some "connect ECONNREFUSED") :=
  proxy_errors_c5.2.2.2.2.1 "http://example.test/api" ⟨"http", "example.test"⟩ []
    (fun _ _ => Except.error ⟨"fetch failed", some "connect ECONNREFUSED"⟩)
    ⟨"fetch failed", some "connect ECONNREFUSED"⟩ (by decide) rfl

/-- Counterexample to C4: the source strips only the exact lowercase keys,
so a caller-supplied `Host` header (capitalised, as HTTP senders commonly
spell it) is NOT removed and is forwarded upstream, while the claim's
reading of "the conflicting headers host, content-length, and connection
removed" (HTTP header names being case-insensitive) requires it gone; at
this input the forwarded map differs from the claim's predicted map. -/
theorem proxy_headers_c4_counterexample :
    hHas (prepareSafeHeaders [("Host", "internal.example")] "http://example.test")
        "Host" = true
    ∧ hHas (specForwardedHeaders [("Host", "internal.example")] "http://example.test")
        "Host" = false
    ∧ prepareSafeHeaders [("Host", "internal.example")] "http://example.test"
        ≠ specForwardedHeaders [("Host", "internal.example")] "http://example.test" := by
  refine ⟨by decide, by decide, by decide⟩

/-- C4 (amended): the header map forwarded upstream is the caller-supplied
map with the exact lowercase keys `host`, `content-length` and `connection`
deleted (other spellings such as `Host` pass through), plus `Origin` set to
the target URL's own origin, `Referer` set to that origin followed by a
slash, and the non-empty default User-Agent, each added exactly when
neither the canonical nor the all-lowercase spelling of that header holds a
truthy (non-empty) caller value; caller-supplied entries other than the
three deleted keys are kept — except that when an injection fires, any
caller entry under that injection's canonical key (necessarily holding the
falsy empty string) is overwritten by the injected value — and nothing else
is added. -/
theorem proxy_headers_c4_amended (hs : List (String × String)) (o : String) :
    (hHas (prepareSafeHeaders hs o) "host" = false
      ∧ hHas (prepareSafeHeaders hs o) "content-length" = false
      ∧ hHas (prepareSafeHeaders hs o) "connection" = false)
    ∧ (hTruthy hs "Origin" = false → hTruthy hs "origin" = false →
        ("Origin", o) ∈ prepareSafeHeaders hs o)
    ∧ (hTruthy hs "Referer" = false → hTruthy hs "referer" = false →
        ("Referer", o ++ "/") ∈ prepareSafeHeaders hs o)
    ∧ (hTruthy hs "User-Agent" = false → hTruthy hs "user-agent" = false →
        ("User-Agent", defaultUserAgent) ∈ prepareSafeHeaders hs o)
    ∧ defaultUserAgent ≠ ""
    ∧ (∀ k v, (k, v) ∈ hs → k ≠ "host" → k ≠ "content-length" → k ≠ "connection" →
        (k = "Origin" → hTruthy hs "Origin" = true ∨ hTruthy hs "origin" = true) →
        (k = "Referer" → hTruthy hs "Referer" = true ∨ hTruthy hs "referer" = true) →
        (k = "User-Agent" →
          hTruthy hs "User-Agent" = true ∨ hTruthy hs "user-agent" = true) →
        (k, v) ∈ prepareSafeHeaders hs o)
    ∧ (∀ p, p ∈ prepareSafeHeaders hs o →
        p ∈ hs
        ∨ (p = ("Origin", o) ∧ hTruthy hs "Origin" = false
            ∧ hTruthy hs "origin" = false)
        ∨ (p = ("Referer", o ++ "/") ∧ hTruthy hs "Referer" = false
            ∧ hTruthy hs "referer" = false)
        ∨ (p = ("User-Agent", defaultUserAgent) ∧ hTruthy hs "User-Agent" = false
            ∧ hTruthy hs "user-agent" = false))
    ∧ (hTruthy hs "Origin" = false → hTruthy hs "origin" = false →
        ∀ v2, ("Origin", v2) ∈ prepareSafeHeaders hs o → v2 = o)
    ∧ (hTruthy hs "Referer" = false → hTruthy hs "referer" = false →
        ∀ v2, ("Referer", v2) ∈ prepareSafeHeaders hs o → v2 = o ++ "/")
    ∧ (hTruthy hs "User-Agent" = false → hTruthy hs "user-agent" = false →
        ∀ v2, ("User-Agent", v2) ∈ prepareSafeHeaders hs o → v2 = defaultUserAgent) := by
  set d := hDelete (hDelete (hDelete hs "host") "content-length") "connection" with hd
  set s1 := injectIfMissing d "Origin" "origin" "Origin" o with hs1def
  set s2 := injectIfMissing s1 "Referer" "referer" "Referer" (o ++ "/") with hs2def
  have hP : prepareSafeHeaders hs o
      = injectIfMissing s2 "User-Agent" "user-agent" "User-Agent" defaultUserAgent := rfl
  rw [hP]
  have hdK : ∀ k, k ≠ "host" → k ≠ "content-length" → k ≠ "connection" →
      hHas d k = hHas hs k := by
    intro k h1 h2 h3
    rw [hd, hHas_hDelete_ne _ _ _ h3, hHas_hDelete_ne _ _ _ h2, hHas_hDelete_ne _ _ _ h1]
  have hdT : ∀ k, k ≠ "host" → k ≠ "content-length" → k ≠ "connection" →
      hTruthy d k = hTruthy hs k := by
    intro k h1 h2 h3
    rw [hd, hTruthy_hDelete_ne _ _ _ h3, hTruthy_hDelete_ne _ _ _ h2,
      hTruthy_hDelete_ne _ _ _ h1]
  have hs1K : ∀ k, "Origin" ≠ k → hHas s1 k = hHas d k := by
    intro k hk
    rw [hs1def]
    exact injectIfMissing_hHas_ne d "Origin" "origin" o k hk
  have hs1T : ∀ k, "Origin" ≠ k → hTruthy s1 k = hTruthy d k := by
    intro k hk
    rw [hs1def]
    exact injectIfMissing_hTruthy_ne d "Origin" "origin" o k hk
  have hs2K : ∀ k, "Referer" ≠ k → hHas s2 k = hHas s1 k := by
    intro k hk
    rw [hs2def]
    exact injectIfMissing_hHas_ne s1 "Referer" "referer" (o ++ "/") k hk
  have hs2T : ∀ k, "Referer" ≠ k → hTruthy s2 k = hTruthy s1 k := by
    intro k hk
    rw [hs2def]
    exact injectIfMissing_hTruthy_ne s1 "Referer" "referer" (o ++ "/") k hk
  have hPK : ∀ k, "User-Agent" ≠ k →
      hHas (injectIfMissing s2 "User-Agent" "user-agent" "User-Agent" defaultUserAgent) k
        = hHas s2 k :=
    fun k hk => injectIfMissing_hHas_ne s2 "User-Agent" "user-agent" defaultUserAgent k hk
  have hOd : ∀ k, k ≠ "host" → k ≠ "content-length" → k ≠ "connection" →
      hTruthy hs k = false → hTruthy d k = false := by
    intro k h1 h2 h3 h4
    rw [hdT k h1 h2 h3]
    exact h4
  have hdM : ∀ p, p ∈ d → p ∈ hs := by
    intro p hp
    rw [hd] at hp
    exact ((mem_hDelete_iff _ _ _).mp
      (((mem_hDelete_iff _ _ _).mp (((mem_hDelete_iff _ _ _).mp hp).1)).1)).1
  have hdMrev : ∀ k v, (k, v) ∈ hs → k ≠ "host" → k ≠ "content-length" →
      k ≠ "connection" → (k, v) ∈ d := by
    intro k v hm h1 h2 h3
    rw [hd]
    exact (mem_hDelete_iff _ _ _).mpr
      ⟨(mem_hDelete_iff _ _ _).mpr ⟨(mem_hDelete_iff _ _ _).mpr ⟨hm, h1⟩, h2⟩, h3⟩
  refine ⟨⟨?_, ?_, ?_⟩, ?_, ?_, ?_, by decide, ?_, ?_, ?_, ?_, ?_⟩
  · rw [hPK _ (by decide), hs2K _ (by decide), hs1K _ (by decide)]
    rw [hd, hHas_hDelete_ne _ _ _ (by decide), hHas_hDelete_ne _ _ _ (by decide)]
    exact hHas_hDelete_self _ _
  · rw [hPK _ (by decide), hs2K _ (by decide), hs1K _ (by decide)]
    rw [hd, hHas_hDelete_ne _ _ _ (by decide)]
    rw [hHas_hDelete_self]
  · rw [hPK _ (by decide), hs2K _ (by decide), hs1K _ (by decide)]
    rw [hd]
    exact hHas_hDelete_self _ _
  · intro h1 h2
    have hmem : ("Origin", o) ∈ s1 := by
      rw [hs1def]
      exact injectIfMissing_mem_inject d "Origin" "origin" o
        (hOd "Origin" (by decide) (by decide) (by decide) h1)
        (hOd "origin" (by decide) (by decide) (by decide) h2)
    have hmem2 : ("Origin", o) ∈ s2 := by
      rw [hs2def]
      exact injectIfMissing_mem_of_ne s1 "Referer" "referer" (o ++ "/") ("Origin", o)
        hmem (show ("Origin" : String) ≠ "Referer" by decide)
    exact injectIfMissing_mem_of_ne s2 "User-Agent" "user-agent" defaultUserAgent
      ("Origin", o) hmem2 (show ("Origin" : String) ≠ "User-Agent" by decide)
  · intro h1 h2
    have hg1 : hTruthy s1 "Referer" = false := by
      rw [hs1T _ (by decide), hdT _ (by decide) (by decide) (by decide)]
      exact h1
    have hg2 : hTruthy s1 "referer" = false := by
      rw [hs1T _ (by decide), hdT _ (by decide) (by decide) (by decide)]
      exact h2
    have hmem : ("Referer", o ++ "/") ∈ s2 := by
      rw [hs2def]
      exact injectIfMissing_mem_inject s1 "Referer" "referer" (o ++ "/") hg1 hg2
    exact injectIfMissing_mem_of_ne s2 "User-Agent" "user-agent" defaultUserAgent
      ("Referer", o ++ "/") hmem (show ("Referer" : String) ≠ "User-Agent" by decide)
  · intro h1 h2
    have hg1 : hTruthy s2 "User-Agent" = false := by
      rw [hs2T _ (by decide), hs1T _ (by decide),
        hdT _ (by decide) (by decide) (by decide)]
      exact h1
    have hg2 : hTruthy s2 "user-agent" = false := by
      rw [hs2T _ (by decide), hs1T _ (by decide),
        hdT _ (by decide) (by decide) (by decide)]
      exact h2
    exact injectIfMissing_mem_inject s2 "User-Agent" "user-agent" defaultUserAgent hg1 hg2
  · intro k v hm h1 h2 h3 hO hR hU
    have hmd : (k, v) ∈ d := hdMrev k v hm h1 h2 h3
    have hm1 : (k, v) ∈ s1 := by
      rw [hs1def]
      by_cases hk : k = "Origin"
      · refine injectIfMissing_mem_of_truthy d "Origin" "origin" o _ hmd ?_
        rcases hO hk with ht | ht
        · exact Or.inl (by rw [hdT _ (by decide) (by decide) (by decide)]; exact ht)
        · exact Or.inr (by rw [hdT _ (by decide) (by decide) (by decide)]; exact ht)
      · exact injectIfMissing_mem_of_ne d "Origin" "origin" o _ hmd hk
    have hm2 : (k, v) ∈ s2 := by
      rw [hs2def]
      by_cases hk : k = "Referer"
      · refine injectIfMissing_mem_of_truthy s1 "Referer" "referer" (o ++ "/") _ hm1 ?_
        rcases hR hk with ht | ht
        · exact Or.inl (by
            rw [hs1T _ (by decide), hdT _ (by decide) (by decide) (by decide)]
            exact ht)
        · exact Or.inr (by
            rw [hs1T _ (by decide), hdT _ (by decide) (by decide) (by decide)]
            exact ht)
      · exact injectIfMissing_mem_of_ne s1 "Referer" "referer" (o ++ "/") _ hm1 hk
    by_cases hk : k = "User-Agent"
    · refine injectIfMissing_mem_of_truthy s2 "User-Agent" "user-agent"
        defaultUserAgent _ hm2 ?_
      rcases hU hk with ht | ht
      · exact Or.inl (by
          rw [hs2T _ (by decide), hs1T _ (by decide),
            hdT _ (by decide) (by decide) (by decide)]
          exact ht)
      · exact Or.inr (by
          rw [hs2T _ (by decide), hs1T _ (by decide),
            hdT _ (by decide) (by decide) (by decide)]
          exact ht)
    · exact injectIfMissing_mem_of_ne s2 "User-Agent" "user-agent" defaultUserAgent _
        hm2 hk
  · intro p hp
    rcases injectIfMissing_mem_elim s2 "User-Agent" "user-agent" defaultUserAgent p hp
      with hp2 | ⟨hpe, hU1, hU2⟩
    · rw [hs2def] at hp2
      rcases injectIfMissing_mem_elim s1 "Referer" "referer" (o ++ "/") p hp2
        with hp3 | ⟨hpe, hR1, hR2⟩
      · rw [hs1def] at hp3
        rcases injectIfMissing_mem_elim d "Origin" "origin" o p hp3
          with hp4 | ⟨hpe, hO1, hO2⟩
        · exact Or.inl (hdM p hp4)
        · refine Or.inr (Or.inl ⟨hpe, ?_, ?_⟩)
          · rw [← hdT _ (by decide) (by decide) (by decide)]
            exact hO1
          · rw [← hdT _ (by decide) (by decide) (by decide)]
            exact hO2
      · refine Or.inr (Or.inr (Or.inl ⟨hpe, ?_, ?_⟩))
        · rw [← hdT _ (by decide) (by decide) (by decide), ← hs1T _ (by decide)]
          exact hR1
        · rw [← hdT _ (by decide) (by decide) (by decide), ← hs1T _ (by decide)]
          exact hR2
    · refine Or.inr (Or.inr (Or.inr ⟨hpe, ?_, ?_⟩))
      · rw [← hdT _ (by decide) (by decide) (by decide), ← hs1T _ (by decide),
          ← hs2T _ (by decide)]
        exact hU1
      · rw [← hdT _ (by decide) (by decide) (by decide), ← hs1T _ (by decide),
          ← hs2T _ (by decide)]
        exact hU2
  · intro h1 h2 v2 hmem
    rcases injectIfMissing_mem_elim s2 "User-Agent" "user-agent" defaultUserAgent _ hmem
      with hm2 | ⟨hpe, _, _⟩
    · rw [hs2def] at hm2
      rcases injectIfMissing_mem_elim s1 "Referer" "referer" (o ++ "/") _ hm2
        with hm1 | ⟨hpe, _, _⟩
      · rw [hs1def] at hm1
        have hkey := injectIfMissing_key_elim d "Origin" "origin" o _ hm1 rfl
          (hOd "Origin" (by decide) (by decide) (by decide) h1)
          (hOd "origin" (by decide) (by decide) (by decide) h2)
        simpa using hkey
      · simp at hpe
    · simp at hpe
  · intro h1 h2 v2 hmem
    have hg1 : hTruthy s1 "Referer" = false := by
      rw [hs1T _ (by decide), hdT _ (by decide) (by decide) (by decide)]
      exact h1
    have hg2 : hTruthy s1 "referer" = false := by
      rw [hs1T _ (by decide), hdT _ (by decide) (by decide) (by decide)]
      exact h2
    rcases injectIfMissing_mem_elim s2 "User-Agent" "user-agent" defaultUserAgent _ hmem
      with hm2 | ⟨hpe, _, _⟩
    · rw [hs2def] at hm2
      have hkey := injectIfMissing_key_elim s1 "Referer" "referer" (o ++ "/") _ hm2
        rfl hg1 hg2
      simpa using hkey
    · simp at hpe
  · intro h1 h2 v2 hmem
    have hg1 : hTruthy s2 "User-Agent" = false := by
      rw [hs2T _ (by decide), hs1T _ (by decide),
        hdT _ (by decide) (by decide) (by decide)]
      exact h1
    have hg2 : hTruthy s2 "user-agent" = false := by
      rw [hs2T _ (by decide), hs1T _ (by decide),
        hdT _ (by decide) (by decide) (by decide)]
      exact h2
    have hkey := injectIfMissing_key_elim s2 "User-Agent" "user-agent"
      defaultUserAgent _ hmem rfl hg1 hg2
    simpa using hkey

/-- Witness for C4 (amended): a caller supplying `Origin` with the falsy
empty-string value still gets the target origin injected (overwriting the
empty entry), exercising the truthiness guard at a concrete input. -/
theorem proxy_headers_c4_amended_witness :
    ("Origin", "http://example.test")
      ∈ prepareSafeHeaders [("Origin", "")] "http://example.test" :=
  (proxy_headers_c4_amended [("Origin", "")] "http://example.test").2.1
    (by decide) (by decide)

/-- C3: when the upstream response carries a `Set-Cookie` header (value
`v`), the proxy's forwarding loop echoes `v` under `X-Set-Cookie`, and even
though the browser hides the native `Set-Cookie` header from the
script-visible response, the client bridge's `headers.get('set-cookie')`
accessor returns exactly `v`.  `base` is the rest of the upstream headers,
assumed (as any real upstream) not to carry `set-cookie` or `x-set-cookie`
names of its own. -/
theorem cookie_roundtrip_c3 (base : List (String × String)) (v : String)
    (hb : ∀ p ∈ base, lowerStr p.1 ≠ "set-cookie" ∧ lowerStr p.1 ≠ "x-set-cookie")
    (hv : v ≠ "") :
    ("X-Set-Cookie", v) ∈ forwardResponseHeaders (base ++ [("Set-Cookie", v)])
    ∧ proxyFetchHeadersGet
        (browserVisibleHeaders (forwardResponseHeaders (base ++ [("Set-Cookie", v)])))
        "set-cookie" = some v := by
  set A := forwardResponseHeaders base with hAdef
  have hAk : ∀ p ∈ A, lowerStr p.1 ≠ "set-cookie" ∧ lowerStr p.1 ≠ "x-set-cookie" := by
    rw [hAdef]
    unfold forwardResponseHeaders
    exact forwardResponseHeaders_aux base [] (by intro p hp; simp at hp) hb
  have hsplit : forwardResponseHeaders (base ++ [("Set-Cookie", v)])
      = fwdStep A ("Set-Cookie", v) := by
    rw [hAdef]
    unfold forwardResponseHeaders
    rw [List.foldl_append]
    rfl
  have hstep : fwdStep A ("Set-Cookie", v)
      = resSetHeader (resSetHeader A "Set-Cookie" v) "X-Set-Cookie" v := rfl
  have h1 : resSetHeader A "Set-Cookie" v = A ++ [("Set-Cookie", v)] := by
    unfold resSetHeader
    rw [List.filter_eq_self.mpr]
    intro p hp
    have hne : lowerStr p.1 ≠ lowerStr "Set-Cookie" := by
      rw [(by decide : lowerStr "Set-Cookie" = "set-cookie")]
      exact (hAk p hp).1
    simpa using hne
  have h2 : resSetHeader (A ++ [("Set-Cookie", v)]) "X-Set-Cookie" v
      = (A ++ [("Set-Cookie", v)]) ++ [("X-Set-Cookie", v)] := by
    unfold resSetHeader
    rw [List.filter_eq_self.mpr]
    intro p hp
    rcases List.mem_append.mp hp with h | h
    · have hne : lowerStr p.1 ≠ lowerStr "X-Set-Cookie" := by
        rw [(by decide : lowerStr "X-Set-Cookie" = "x-set-cookie")]
        exact (hAk p h).2
      simpa using hne
    · have hp2 : p = ("Set-Cookie", v) := by simpa using h
      rw [hp2]
      simpa using (by decide : lowerStr "Set-Cookie" ≠ lowerStr "X-Set-Cookie")
  have hT : forwardResponseHeaders (base ++ [("Set-Cookie", v)])
      = A ++ [("Set-Cookie", v), ("X-Set-Cookie", v)] := by
    rw [hsplit, hstep, h1, h2, List.append_assoc]
    rfl
  have hB : browserVisibleHeaders (A ++ [("Set-Cookie", v), ("X-Set-Cookie", v)])
      = browserVisibleHeaders A ++ [("X-Set-Cookie", v)] := by
    unfold browserVisibleHeaders
    rw [List.filter_append]
    congr 1
  have hfinal : headersGet (browserVisibleHeaders A ++ [("X-Set-Cookie", v)])
      "X-Set-Cookie" = some v := by
    rw [headersGet_append_of_no_match]
    · rfl
    · intro p hp
      have hpA : p ∈ A := (List.mem_filter.mp hp).1
      rw [(by decide : lowerStr "X-Set-Cookie" = "x-set-cookie")]
      exact (hAk p hpA).2
  refine ⟨?_, ?_⟩
  · rw [hT]
    exact List.mem_append_right _ (by simp)
  · rw [hT, hB]
    unfold proxyFetchHeadersGet
    rw [hfinal]
    simp only []
    rw [if_neg hv, if_pos (by decide : lowerStr "set-cookie" = "set-cookie")]

/-- Witness for C3: upstream `Set-Cookie: sid=abc123` (alongside an
ordinary content-type header) is read back as `sid=abc123` through the
cookie accessor. -/
theorem cookie_roundtrip_c3_witness :
    proxyFetchHeadersGet
      (browserVisibleHeaders (forwardResponseHeaders
        ([("Content-Type", "application/json")] ++ [("Set-Cookie", "sid=abc123")])))
      "set-cookie" = some "sid=abc123" :=
  (cookie_roundtrip_c3 [("Content-Type", "application/json")] "sid=abc123"
    (by intro p hp; simp at hp; rw [hp]; exact ⟨by decide, by decide⟩)
    (by decide)).2

/-- C6: a `setCustomData(next)` call from generated code reaches the host
as a `SET_CUSTOM_DATA` message and is forwarded to `onSetCustomData` as
exactly `next`, whatever the previously persisted blob was; the receiving
`handleCustomDataUpdate` replaces the config's `customData` field
wholesale (every other field untouched) and hands the new config to
`updateWidgetConfig`, which stores it on the matching widget record,
leaving other widgets untouched; a subsequent `POST /api/config` save
stores exactly the posted state.  No diff or merge happens anywhere on the
path: after `customData = [(a, 1)]`, persisting `[(b, 2)]` leaves exactly
`[(b, 2)]`, which differs from the spread-merge `[(a, 1), (b, 2)]`. -/
theorem setCustomData_replace_c6 :
    (∀ (w : Nat) (code : String) (prev : CustomData) (st : HostState)
        (next : CustomData),
      handleMessage (some w) (some w) code prev (some (widgetSetCustomData next)) st
        = (st, [HostEffect.persistCustomData next]))
    ∧ (∀ (config : UniversalWidgetConfig) (next : CustomData),
        (handleCustomDataUpdate config next).customData = next
        ∧ (handleCustomDataUpdate config next).endpoint = config.endpoint
        ∧ (handleCustomDataUpdate config next).label = config.label
        ∧ (handleCustomDataUpdate config next).customCode = config.customCode)
    ∧ (∀ (ws : List Widget) (w : Widget) (cfg : UniversalWidgetConfig), w ∈ ws →
        { w with config := cfg, title := cfg.label } ∈ updateWidgetConfig ws w.id cfg)
    ∧ (∀ (ws : List Widget) (id : String) (cfg : UniversalWidgetConfig) (w : Widget),
        w ∈ ws → w.id ≠ id → w ∈ updateWidgetConfig ws id cfg)
    ∧ (∀ (d : List Widget) (stored : Option (List Widget)),
        (apiPostConfig (some d) stored).1 = some d)
    ∧ ([("b", 2)] : CustomData) ≠ objMerge [("a", 1)] [("b", 2)] := by
  refine ⟨fun w code prev st next => ?_, fun config next => ⟨rfl, rfl, rfl, rfl⟩,
    ?_, ?_, fun d stored => rfl, by decide⟩
  · unfold handleMessage widgetSetCustomData
    rw [if_pos ⟨rfl, rfl⟩]
  · intro ws w cfg hw
    unfold updateWidgetConfig
    exact List.mem_map.mpr ⟨w, hw, by rw [if_pos rfl]⟩
  · intro ws id cfg w hw hne
    unfold updateWidgetConfig
    exact List.mem_map.mpr ⟨w, hw, by rw [if_neg hne]⟩

/-- Witness for C6: a concrete widget whose config holds `customData =
[(a, 1)]` ends, after the full path handles `setCustomData([(b, 2)])`, with
exactly `[(b, 2)]` persisted on its record. -/
theorem setCustomData_replace_c6_witness :
    ({ id := "w1", title := "L",
        config := handleCustomDataUpdate
          ⟨"http://e", "GET", [], "p", 10, "L", none, none, some "c", [("a", 1)]⟩
          [("b", 2)] } : Widget)
      ∈ updateWidgetConfig
          [⟨"w1", "L", ⟨"http://e", "GET", [], "p", 10, "L", none, none, some "c",
            [("a", 1)]⟩⟩] "w1"
          (handleCustomDataUpdate
            ⟨"http://e", "GET", [], "p", 10, "L", none, none, some "c", [("a", 1)]⟩
            [("b", 2)])
    ∧ (handleCustomDataUpdate
        ⟨"http://e", "GET", [], "p", 10, "L", none, none, some "c", [("a", 1)]⟩
        [("b", 2)]).customData = [("b", 2)] :=
  ⟨setCustomData_replace_c6.2.2.1
    [⟨"w1", "L", ⟨"http://e", "GET", [], "p", 10, "L", none, none, some "c",
      [("a", 1)]⟩⟩]
    ⟨"w1", "L", ⟨"http://e", "GET", [], "p", 10, "L", none, none, some "c",
      [("a", 1)]⟩⟩
    (handleCustomDataUpdate
      ⟨"http://e", "GET", [], "p", 10, "L", none, none, some "c", [("a", 1)]⟩
      [("b", 2)])
    (by simp),
   (setCustomData_replace_c6.2.1
    ⟨"http://e", "GET", [], "p", 10, "L", none, none, some "c", [("a", 1)]⟩
    [("b", 2)]).1⟩

/-- C10: the host's message handler acts only on messages whose source
window is this instance's own iframe `contentWindow`: for every message
from any other window (a sibling widget's iframe, or any window when the
iframe ref is unset), the handler returns with the state unchanged and no
effects — no config write, no crash-error record, no proxy fetch. -/
theorem message_source_guard_c10 (own src : Option Nat) (code : String)
    (customData : CustomData) (msg : Option WidgetMessage) (st : HostState)
    (h : src ≠ own ∨ own = none) :
    handleMessage own src code customData msg st = (st, []) := by
  unfold handleMessage
  rw [if_neg]
  rintro ⟨h1, h2⟩
  rcases h with h | h
  · exact h h2
  · rw [h] at h1
    simp at h1

/-- Witness for C10: a `SET_CUSTOM_DATA` message from a sibling window
(identity 2) aimed at a widget whose own iframe is window 1 changes
nothing and triggers nothing. -/
theorem message_source_guard_c10_witness :
    handleMessage (some 1) (some 2) "code" []
      (some (WidgetMessage.setCustomDataMsg [("a", 1)])) ⟨false, none⟩
      = (⟨false, none⟩, []) :=
  message_source_guard_c10 (some 1) (some 2) "code" []
    (some (WidgetMessage.setCustomDataMsg [("a", 1)])) ⟨false, none⟩
    (Or.inl (by decide))

/-- C7: a source string that is empty or consists only of whitespace makes
the loader yield the sentinel result — never a compile error, whatever the
platform compiler would do — and the widget renders the inert empty
state. -/
theorem empty_source_c7 {α : Type} (construct : String → Except String α)
    (code : String) (hws : ∀ c ∈ code.data, isJsWhitespace c = true) :
    compileLoad construct code = LoadResult.empty
    ∧ renderLoad code (compileLoad construct code) = WidgetView.emptyView
    ∧ ∀ m, compileLoad construct code ≠ LoadResult.compileFailure m := by
  have hdropAll : ∀ l : List Char, (∀ c ∈ l, isJsWhitespace c = true) →
      l.dropWhile isJsWhitespace = [] := by
    intro l
    induction l with
    | nil => intro _; rfl
    | cons c cs ih =>
      intro h
      rw [List.dropWhile_cons_of_pos (h c (List.mem_cons_self c cs))]
      exact ih (fun x hx => h x (List.mem_cons_of_mem c hx))
  have htrim : jsTrim code = "" := by
    unfold jsTrim
    rw [hdropAll code.data hws]
    rfl
  have h1 : compileLoad construct code = LoadResult.empty := by
    unfold compileLoad
    rw [if_pos (Or.inr htrim)]
  refine ⟨h1, by rw [h1]; rfl, fun m => by rw [h1]; simp⟩

/-- Witness for C7: a single-space source with an always-failing platform
compiler still yields the sentinel. -/
theorem empty_source_c7_witness :
    compileLoad (fun _ => (Except.error "boom" : Except String Nat)) " "
      = LoadResult.empty :=
  (empty_source_c7 (fun _ => Except.error "boom") " " (by decide)).1

/-- C8: when constructing the callable from a non-empty source raises with
message `e`, the loader produces the compile-error result carrying exactly
the raw (non-empty) message; the rendered fallback is the distinct
Compilation Error view, displaying only its caption and the message — in
particular not the bad source text — while offering `(message)` and
`(message, source)` to the external report callback; and this view differs
from the runtime-crash fallback the boundary renders, for every crash
state. -/
theorem compile_error_c8 {α : Type} (construct : String → Except String α)
    (code e : String) (hc : construct code = Except.error e) (he : e ≠ "")
    (hcode : code ≠ "") (htrim : jsTrim code ≠ "") :
    compileLoad construct code = LoadResult.compileFailure e
    ∧ renderLoad code (compileLoad construct code)
        = WidgetView.compileErrorView e
            [ReportAction.reportErrorOnly e, ReportAction.reportWithCode e code]
    ∧ displayedText (renderLoad code (compileLoad construct code))
        = ["Code Compilation Error:", e]
    ∧ e ≠ ""
    ∧ (code ≠ "Code Compilation Error:" → code ≠ e →
        code ∉ displayedText (renderLoad code (compileLoad construct code)))
    ∧ (∀ (st : ErrorBoundaryState) (c2 : String) (child : WidgetView α),
        st.hasError = true →
        renderLoad code (compileLoad construct code) ≠ boundaryRender st c2 child) := by
  have hcond : ¬ (code = "" ∨ jsTrim code = "") := by
    rintro (h | h)
    · exact hcode h
    · exact htrim h
  have h1 : compileLoad construct code = LoadResult.compileFailure e := by
    unfold compileLoad
    rw [if_neg hcond, hc]
  refine ⟨h1, by rw [h1]; rfl, by rw [h1]; rfl, he, ?_, ?_⟩
  · intro hne1 hne2 hmem
    rw [h1] at hmem
    simp [renderLoad, displayedText] at hmem
    rcases hmem with h | h
    · exact hne1 h
    · exact hne2 h
  · intro st c2 child hErr
    rw [h1]
    unfold boundaryRender
    rw [if_pos hErr]
    simp [renderLoad]

/-- Witness for C8: the sample bad source with a concrete platform throw
yields the compile-error result carrying that message. -/
theorem compile_error_c8_witness :
    compileLoad (fun _ => (Except.error "Unexpected token" : Except String Nat))
      "return garbage(" = LoadResult.compileFailure "Unexpected token" :=
  (compile_error_c8 (fun _ => Except.error "Unexpected token") "return garbage("
    "Unexpected token" rfl (by decide) (by decide) (by decide)).1

/-- Counterexample to C9: the in-process revisions memoize on
`[code, onReportError]`, not on the source string alone — two consecutive
renders with the identical source but a different report-callback identity
run the compile step twice, so the compile step is not limited to one run
per unchanged-source sequence. -/
theorem memo_recompile_c9_counterexample :
    (("return 1", 0) : String × Nat).1 = (("return 1", 1) : String × Nat).1
    ∧ (memoRun (inProcessCompute (fun _ => (Except.ok 0 : Except String Nat)))
        [("return 1", 0), ("return 1", 1)] ⟨none, 0⟩).computeCount = 2
    ∧ ¬ (memoRun (inProcessCompute (fun _ => (Except.ok 0 : Except String Nat)))
        [("return 1", 0), ("return 1", 1)] ⟨none, 0⟩).computeCount ≤ 1 := by
  refine ⟨rfl, by decide, by decide⟩

/-- C9 (amended): in the iframe revision the compile step is memoized on
the source string alone, so across every sequence of renders with an
unchanged source it runs at most once; in the in-process revisions the
memo key also includes the report-callback identity, so the at-most-once
guarantee holds for sequences in which both the source and that callback
are unchanged (and, per the counterexample, not otherwise); and the
compiled value is a function of the source string alone — the same source
always yields the same factory, whether recomputed or cached. -/
theorem memo_compile_c9_amended {α : Type} (construct : String → Except String α) :
    (∀ (code : String) (l : List String), (∀ x ∈ l, x = code) →
      (memoRun (compileLoad construct) l ⟨none, 0⟩).computeCount ≤ 1)
    ∧ (∀ (code : String) (cb : Nat) (l : List (String × Nat)),
        (∀ x ∈ l, x = (code, cb)) →
        (memoRun (inProcessCompute construct) l ⟨none, 0⟩).computeCount ≤ 1)
    ∧ (∀ (code : String) (cb1 cb2 : Nat),
        inProcessCompute construct (code, cb1) = inProcessCompute construct (code, cb2))
    ∧ (∀ (code : String) (s : MemoState String (LoadResult α)),
        (∀ d0 v0, s.cache = some (d0, v0) → v0 = compileLoad construct d0) →
        (useMemoStep (compileLoad construct) code s).1 = compileLoad construct code) := by
  refine ⟨fun code l hl => memoRun_const_count _ code l hl,
    fun code cb l hl => memoRun_const_count _ (code, cb) l hl,
    fun code cb1 cb2 => rfl, ?_⟩
  intro code s hcons
  rcases hs : s.cache with - | ⟨d0, v0⟩
  · simp [useMemoStep, hs]
  · by_cases hcd : code = d0
    · simp only [useMemoStep, hs, hcd, if_pos]
      rw [hcons d0 v0 hs]
    · simp [useMemoStep, hs, hcd]

/-- Witness for C9 (amended): three renders of the same source compile at
most once. -/
theorem memo_compile_c9_witness :
    (memoRun (compileLoad (fun _ => (Except.ok 0 : Except String Nat)))
      ["x", "x", "x"] ⟨none, 0⟩).computeCount ≤ 1 :=
  (memo_compile_c9_amended (fun _ => Except.ok 0)).1 "x" ["x", "x", "x"] (by decide)
